import Mathlib

/-
Verification of the goxkit/configs_builder repository: a shallow embedding of
the default-injection + environment-unmarshalling pipeline and of the fluent
configuration builder, together with proofs of the specified properties.

The embedding follows the modern builder variant (the file defining
loadStructDefaults, newConfigs, setupViper and setupObservability); the legacy
variant of Build is a duplicate of the same orchestration without the Default
Injector, and the enable methods are identical in both variants.

External collaborators (the spf13/viper key/value store, the goxkit logging
and tracing installers, environment-file discovery) are not part of this
repository; they are modelled from the spec as oracles or as explicit data.
-/

set_option autoImplicit false

/-- Errors returned by Go functions are modelled by their message. -/
abbrev GoError := String

/-- An association list of string keys to string values. -/
abbrev KVList := List (String × String)

/-- First-match lookup in a key/value list, the lookup of a Go map. -/
def lookupKV : KVList → String → Option String
  | [], _ => none
  | p :: rest, k => if p.1 = k then some p.2 else lookupKV rest k

/-- Whether a key/value list holds an entry for the given key. -/
def hasKey : KVList → String → Bool
  | [], _ => false
  | p :: rest, k => if p.1 = k then true else hasKey rest k

/-- Rewrite every entry for key k to the value d, leaving other entries alone. -/
def mapSet (l : KVList) (k d : String) : KVList :=
  l.map (fun p => if p.1 = k then (k, d) else p)

/-- Store the pair (k, d): overwrite the entry for k when present, append it
otherwise.  This is the update of a Go map entry, as performed by the store's
default-registration operation. -/
def setKV (l : KVList) (k d : String) : KVList :=
  if hasKey l k then mapSet l k d else l ++ [(k, d)]

/-- Apply a sequence of key/value writes from left to right. -/
def applyAll (l : KVList) (ps : KVList) : KVList :=
  ps.foldl (fun acc p => setKV acc p.1 p.2) l

/-- Modelled from the spec: the spf13/viper key/value store used by the
builder, an external collaborator.  It layers the live process environment
over the values read from the environment file over the registered defaults;
`AutomaticEnv` makes the live environment take precedence over file values,
and both take precedence over defaults. -/
structure Viper where
  envVars : KVList
  fileVars : KVList
  defaults : KVList
deriving DecidableEq, Repr

/-- Modelled from the spec: viper `SetDefault` registers a default value for
a key, overwriting a previously registered default for the same key.  It only
touches the defaults layer. -/
def Viper.setDefault (v : Viper) (k d : String) : Viper :=
  { v with defaults := setKV v.defaults k d }

/-- Modelled from the spec: the explicit (non-default) value the store holds
for a key, with the live environment taking precedence over file values. -/
def Viper.explicitGet (v : Viper) (k : String) : Option String :=
  match lookupKV v.envVars k with
  | some x => some x
  | none => lookupKV v.fileVars k

/-- Modelled from the spec: a viper read resolves a key through the
precedence chain live environment, then file, then registered defaults. -/
def Viper.get (v : Viper) (k : String) : Option String :=
  match lookupKV v.envVars k with
  | some x => some x
  | none =>
    match lookupKV v.fileVars k with
    | some x => some x
    | none => lookupKV v.defaults k

/-- One field of a configuration schema, as seen by reflection: the value of
its default tag and of its mapstructure tag, each present or absent
(`reflect.StructTag.Lookup` returns the value and a presence flag). -/
structure StructField where
  defaultTag : Option String
  mapstructureTag : Option String
deriving DecidableEq, Repr

/-- A Go value as classified by loadStructDefaults: a struct with its
reflected fields, a pointer to another value, or anything else. -/
inductive GoValue where
  | structVal (fields : List StructField)
  | ptrVal (v : GoValue)
  | primVal
deriving DecidableEq, Repr

/-- The body of the per-field loop of loadStructDefaults: look up the default
tag, skip the field when it is absent or empty, look up the mapstructure tag,
skip when absent or empty, otherwise register the default in the store. -/
def loadFieldDefault (v : Viper) (field : StructField) : Viper :=
  match field.defaultTag with
  | none => v
  | some defaultVal =>
    if defaultVal == "" then v
    else
      match field.mapstructureTag with
      | none => v
      | some envKey =>
        if envKey == "" then v else v.setDefault envKey defaultVal

/-- loadStructDefaults: dereference a pointer once, return the store
unchanged if the result is not a struct, otherwise run the per-field loop
over the fields in declaration order. -/
def loadStructDefaults (v : Viper) (structPtr : GoValue) : Viper :=
  let val :=
    match structPtr with
    | GoValue.ptrVal inner => inner
    | x => x
  match val with
  | GoValue.structVal fields => fields.foldl loadFieldDefault v
  | _ => v

/-- The (mappingKey, defaultValue) pair a field contributes, following the
spec of the Default Injector: a field registers a pair exactly when it
declares both a non-empty default annotation and a non-empty mapping key. -/
def registeredPair (f : StructField) : Option (String × String) :=
  match f.defaultTag with
  | none => none
  | some d =>
    if d == "" then none
    else
      match f.mapstructureTag with
      | none => none
      | some k => if k == "" then none else some (k, d)

/-- The pairs a schema registers, in field declaration order, following the
spec of the Default Injector. -/
def registeredPairs (fields : List StructField) : KVList :=
  fields.filterMap registeredPair

/-- Modelled from the spec: tag-directed deserialization of one schema field
reads the store's resolved value for the field's mapping key. -/
def unmarshalField (v : Viper) (key : String) : Option String :=
  v.get key

/-- Whether a Go value is a struct or a pointer to a struct; everything else
is ignored by loadStructDefaults. -/
def isStructLike : GoValue → Bool
  | GoValue.structVal _ => true
  | GoValue.ptrVal (GoValue.structVal _) => true
  | _ => false

/-- The configsBuilder struct: a deferred error slot and one boolean
enablement flag per optional configuration domain. -/
structure ConfigsBuilder where
  Err : Option GoError
  http : Bool
  otlp : Bool
  postgres : Bool
  identity : Bool
  mqtt : Bool
  rabbitmq : Bool
  aws : Bool
  dynamoDB : Bool
deriving DecidableEq, Repr

/-- NewConfigsBuilder: a builder with no configurations enabled and no error. -/
def NewConfigsBuilder : ConfigsBuilder :=
  ⟨none, false, false, false, false, false, false, false, false⟩

/-- HTTP enables HTTP configuration loading in the builder. -/
def ConfigsBuilder.HTTP (b : ConfigsBuilder) : ConfigsBuilder :=
  { b with http := true }

/-- Otlp enables OpenTelemetry configuration in the builder. -/
def ConfigsBuilder.Otlp (b : ConfigsBuilder) : ConfigsBuilder :=
  { b with otlp := true }

/-- Postgres enables SQL database configuration loading in the builder. -/
def ConfigsBuilder.Postgres (b : ConfigsBuilder) : ConfigsBuilder :=
  { b with postgres := true }

/-- Identity enables identity configuration loading in the builder. -/
def ConfigsBuilder.Identity (b : ConfigsBuilder) : ConfigsBuilder :=
  { b with identity := true }

/-- MQTT enables MQTT configuration loading in the builder. -/
def ConfigsBuilder.MQTT (b : ConfigsBuilder) : ConfigsBuilder :=
  { b with mqtt := true }

/-- RabbitMQ enables RabbitMQ configuration loading in the builder. -/
def ConfigsBuilder.RabbitMQ (b : ConfigsBuilder) : ConfigsBuilder :=
  { b with rabbitmq := true }

/-- AWS enables AWS configuration loading in the builder. -/
def ConfigsBuilder.AWS (b : ConfigsBuilder) : ConfigsBuilder :=
  { b with aws := true }

/-- DynamoDB enables DynamoDB configuration loading in the builder. -/
def ConfigsBuilder.DynamoDB (b : ConfigsBuilder) : ConfigsBuilder :=
  { b with dynamoDB := true }

/-- The eight enable switches of the builder surface. -/
inductive Switch where
  | http | otlp | postgres | identity | mqtt | rabbitmq | aws | dynamoDB
deriving DecidableEq, Repr

/-- The flag of the builder governed by a switch. -/
def switchFlag (b : ConfigsBuilder) : Switch → Bool
  | Switch.http => b.http
  | Switch.otlp => b.otlp
  | Switch.postgres => b.postgres
  | Switch.identity => b.identity
  | Switch.mqtt => b.mqtt
  | Switch.rabbitmq => b.rabbitmq
  | Switch.aws => b.aws
  | Switch.dynamoDB => b.dynamoDB

/-- Dispatch a switch to the corresponding enable method of the builder. -/
def enableSwitch (s : Switch) (b : ConfigsBuilder) : ConfigsBuilder :=
  match s with
  | Switch.http => b.HTTP
  | Switch.otlp => b.Otlp
  | Switch.postgres => b.Postgres
  | Switch.identity => b.Identity
  | Switch.mqtt => b.MQTT
  | Switch.rabbitmq => b.RabbitMQ
  | Switch.aws => b.AWS
  | Switch.dynamoDB => b.DynamoDB

/-- The seven optional configuration domains processed by Build after the
observability setup (Otlp is handled by the observability step instead). -/
inductive Domain where
  | http | postgres | identity | mqtt | rabbitmq | aws | dynamoDB
deriving DecidableEq, Repr

/-- The fixed order in which Build processes the optional domains: the order
of the if-blocks in the source. -/
def domainOrder : List Domain :=
  [Domain.http, Domain.postgres, Domain.identity, Domain.mqtt,
   Domain.rabbitmq, Domain.aws, Domain.dynamoDB]

/-- Whether the builder flag for a domain is set. -/
def enabled (b : ConfigsBuilder) : Domain → Bool
  | Domain.http => b.http
  | Domain.postgres => b.postgres
  | Domain.identity => b.identity
  | Domain.mqtt => b.mqtt
  | Domain.rabbitmq => b.rabbitmq
  | Domain.aws => b.aws
  | Domain.dynamoDB => b.dynamoDB

/-- The configs.Configs bundle.  Domain payloads are external plain data
schemas, so a populated pointer field is modelled as some unit and a nil
pointer as none.  The logger handle is likewise opaque: some unit when a
logger was assigned, none while the Logger field still holds Go nil. -/
structure Configs where
  appConfigs : Option Unit
  otlpConfigs : Option Unit
  custom : Viper
  logger : Option Unit
  httpConfigs : Option Unit
  postgresConfigs : Option Unit
  identityConfigs : Option Unit
  mqttConfigs : Option Unit
  rabbitmqConfigs : Option Unit
  awsConfigs : Option Unit
  dynamoDBConfigs : Option Unit
deriving DecidableEq, Repr

/-- Whether the bundle field of a domain is populated. -/
def populated (c : Configs) : Domain → Bool
  | Domain.http => c.httpConfigs.isSome
  | Domain.postgres => c.postgresConfigs.isSome
  | Domain.identity => c.identityConfigs.isSome
  | Domain.mqtt => c.mqttConfigs.isSome
  | Domain.rabbitmq => c.rabbitmqConfigs.isSome
  | Domain.aws => c.awsConfigs.isSome
  | Domain.dynamoDB => c.dynamoDBConfigs.isSome

/-- Assign a freshly instantiated schema to the bundle field of a domain. -/
def attachDomain (c : Configs) : Domain → Configs
  | Domain.http => { c with httpConfigs := some () }
  | Domain.postgres => { c with postgresConfigs := some () }
  | Domain.identity => { c with identityConfigs := some () }
  | Domain.mqtt => { c with mqttConfigs := some () }
  | Domain.rabbitmq => { c with rabbitmqConfigs := some () }
  | Domain.aws => { c with awsConfigs := some () }
  | Domain.dynamoDB => { c with dynamoDBConfigs := some () }

/-- The external collaborators Build interacts with, modelled from the spec
as oracles: the outcome of environment-file loading, the reflected schemas of
the configuration structs, the outcome of a viper Unmarshal of the store into
each schema, and the logging/tracing installers.  An installer returns a
logger handle and an error in the Go style: either may independently be nil,
which the model keeps so that use of a nil logger stays observable. -/
structure BuildEnv where
  viperResult : Except GoError Viper
  appSchema : List StructField
  otlpSchema : List StructField
  domainSchema : Domain → List StructField
  unmarshalApp : Viper → Except GoError Unit
  unmarshalOtlp : Viper → Except GoError Unit
  unmarshalDomain : Domain → Viper → Except GoError Unit
  otlpLoggerInstall : Configs → Option Unit × Option GoError
  otlpTracingInstall : Configs → Option Unit × Option GoError
  noopLoggerInstall : Configs → Option Unit × Option GoError

/-- The outcome of Build or of one of its phases: a value, a returned error,
or a runtime panic (dereferencing a nil logger while reporting an error). -/
inductive BuildResult (α : Type) where
  | ok (a : α)
  | err (e : GoError)
  | panicked
deriving DecidableEq, Repr

deriving instance DecidableEq for Except

/-- Ghost trace events recording what Build did, in order: the environment
file load, the base unmarshals, the observability installs with the error
they returned, a best-effort log emission, and each attempted domain
deserialization with its outcome. -/
inductive BuildStep where
  | viperSetup
  | unmarshalAppStep (o : Except GoError Unit)
  | unmarshalOtlpStep (o : Except GoError Unit)
  | installOtlpLoggerStep (o : Option GoError)
  | installOtlpTracerStep (o : Option GoError)
  | installNoopLoggerStep (o : Option GoError)
  | errorLogged (e : GoError)
  | domainStep (d : Domain) (o : Except GoError Unit)
deriving DecidableEq, Repr

/-- Whether a trace event is an attempted domain deserialization. -/
def isDomainStep : BuildStep → Bool
  | BuildStep.domainStep _ _ => true
  | _ => false

/-- The attempted domain deserializations of a trace, with their outcomes. -/
def domainEvents (t : List BuildStep) : List (Domain × Except GoError Unit) :=
  t.filterMap fun s =>
    match s with
    | BuildStep.domainStep d o => some (d, o)
    | _ => none

/-- The result of running a phase that takes the builder as receiver: the
computed value, the receiver as it stands after the call (the source never
assigns to it), and the ghost trace of the phase. -/
structure Run (α : Type) where
  res : α
  bOut : ConfigsBuilder
  trace : List BuildStep

/-- newConfigs: set up the viper store, instantiate the base application
schema, inject its defaults and unmarshal into it, then do the same for the
observability schema, and assemble the initial bundle carrying the store.
Any failure is returned at once, before a logger exists, so without logging. -/
def newConfigsR (b : ConfigsBuilder) (env : BuildEnv) : Run (Except GoError Configs) :=
  match env.viperResult with
  | Except.error e => ⟨Except.error e, b, [BuildStep.viperSetup]⟩
  | Except.ok v =>
    match env.unmarshalApp
        (loadStructDefaults v (GoValue.ptrVal (GoValue.structVal env.appSchema))) with
    | Except.error e =>
      ⟨Except.error e, b,
        [BuildStep.viperSetup, BuildStep.unmarshalAppStep (Except.error e)]⟩
    | Except.ok _ =>
      match env.unmarshalOtlp
          (loadStructDefaults
            (loadStructDefaults v (GoValue.ptrVal (GoValue.structVal env.appSchema)))
            (GoValue.ptrVal (GoValue.structVal env.otlpSchema))) with
      | Except.error e =>
        ⟨Except.error e, b,
          [BuildStep.viperSetup, BuildStep.unmarshalAppStep (Except.ok ()),
           BuildStep.unmarshalOtlpStep (Except.error e)]⟩
      | Except.ok _ =>
        ⟨Except.ok
          { appConfigs := some (), otlpConfigs := some (),
            custom :=
              loadStructDefaults
                (loadStructDefaults v (GoValue.ptrVal (GoValue.structVal env.appSchema)))
                (GoValue.ptrVal (GoValue.structVal env.otlpSchema)),
            logger := none, httpConfigs := none, postgresConfigs := none,
            identityConfigs := none, mqttConfigs := none,
            rabbitmqConfigs := none, awsConfigs := none,
            dynamoDBConfigs := none }, b,
          [BuildStep.viperSetup, BuildStep.unmarshalAppStep (Except.ok ()),
           BuildStep.unmarshalOtlpStep (Except.ok ())]⟩

/-- setupObservability: install the OTLP logger and tracer when the otlp flag
is set, the no-op logger otherwise.  The returned logger handle is assigned
to the bundle before the error check; an install error is logged through that
just-assigned handle, which panics when the handle is nil. -/
def setupObservabilityR (b : ConfigsBuilder) (env : BuildEnv) (cfgs : Configs) :
    Run (BuildResult Configs) :=
  if b.otlp then
    match (env.otlpLoggerInstall cfgs).2 with
    | some e =>
      match (env.otlpLoggerInstall cfgs).1 with
      | none => ⟨BuildResult.panicked, b, [BuildStep.installOtlpLoggerStep (some e)]⟩
      | some _ =>
        ⟨BuildResult.err e, b,
          [BuildStep.installOtlpLoggerStep (some e), BuildStep.errorLogged e]⟩
    | none =>
      match (env.otlpTracingInstall { cfgs with logger := (env.otlpLoggerInstall cfgs).1 }).2 with
      | some e =>
        match (env.otlpLoggerInstall cfgs).1 with
        | none =>
          ⟨BuildResult.panicked, b,
            [BuildStep.installOtlpLoggerStep none,
             BuildStep.installOtlpTracerStep (some e)]⟩
        | some _ =>
          ⟨BuildResult.err e, b,
            [BuildStep.installOtlpLoggerStep none,
             BuildStep.installOtlpTracerStep (some e), BuildStep.errorLogged e]⟩
      | none =>
        ⟨BuildResult.ok { cfgs with logger := (env.otlpLoggerInstall cfgs).1 }, b,
          [BuildStep.installOtlpLoggerStep none, BuildStep.installOtlpTracerStep none]⟩
  else
    match (env.noopLoggerInstall cfgs).2 with
    | some e =>
      match (env.noopLoggerInstall cfgs).1 with
      | none => ⟨BuildResult.panicked, b, [BuildStep.installNoopLoggerStep (some e)]⟩
      | some _ =>
        ⟨BuildResult.err e, b,
          [BuildStep.installNoopLoggerStep (some e), BuildStep.errorLogged e]⟩
    | none =>
      ⟨BuildResult.ok { cfgs with logger := (env.noopLoggerInstall cfgs).1 }, b,
        [BuildStep.installNoopLoggerStep none]⟩

/-- One enabled-domain block of Build: instantiate the domain schema and
attach it to the bundle, inject its defaults into the shared store (the Go
code mutates cfgs.Custom in place, so the injected store is threaded into the
bundle), unmarshal the store into the schema, and on failure log through the
bundle's logger (a panic when that logger is nil) and return the error. -/
def processDomainR (env : BuildEnv) (cfgs : Configs) (d : Domain) :
    BuildResult Configs × List BuildStep :=
  match env.unmarshalDomain d
      (loadStructDefaults cfgs.custom
        (GoValue.ptrVal (GoValue.structVal (env.domainSchema d)))) with
  | Except.error e =>
    match cfgs.logger with
    | none => (BuildResult.panicked, [BuildStep.domainStep d (Except.error e)])
    | some _ =>
      (BuildResult.err e,
        [BuildStep.domainStep d (Except.error e), BuildStep.errorLogged e])
  | Except.ok _ =>
    (BuildResult.ok
      { attachDomain cfgs d with
        custom :=
          loadStructDefaults cfgs.custom
            (GoValue.ptrVal (GoValue.structVal (env.domainSchema d))) },
      [BuildStep.domainStep d (Except.ok ())])

/-- The sequence of enabled-domain blocks of Build, in the order given: a
disabled domain is skipped, an enabled one is processed, and the first
failure stops everything after it. -/
def processDomainsR (b : ConfigsBuilder) (env : BuildEnv) :
    Configs → List Domain → BuildResult Configs × List BuildStep
  | cfgs, [] => (BuildResult.ok cfgs, [])
  | cfgs, d :: rest =>
    if enabled b d then
      match processDomainR env cfgs d with
      | (BuildResult.ok cfgs1, t) =>
        let r := processDomainsR b env cfgs1 rest
        (r.1, t ++ r.2)
      | (BuildResult.err e, t) => (BuildResult.err e, t)
      | (BuildResult.panicked, t) => (BuildResult.panicked, t)
    else processDomainsR b env cfgs rest

/-- Build: construct the base bundle, set up observability, then run the
seven optional-domain blocks in their fixed source order, short-circuiting on
the first failure.  The receiver threads through the phase calls. -/
def buildR (b : ConfigsBuilder) (env : BuildEnv) : Run (BuildResult Configs) :=
  match newConfigsR b env with
  | ⟨Except.error e, b1, t1⟩ => ⟨BuildResult.err e, b1, t1⟩
  | ⟨Except.ok cfgs, b1, t1⟩ =>
    match setupObservabilityR b1 env cfgs with
    | ⟨BuildResult.ok cfgs2, b2, t2⟩ =>
      let r := processDomainsR b2 env cfgs2 domainOrder
      ⟨r.1, b2, t1 ++ t2 ++ r.2⟩
    | ⟨BuildResult.err e, b2, t2⟩ => ⟨BuildResult.err e, b2, t1 ++ t2⟩
    | ⟨BuildResult.panicked, b2, t2⟩ => ⟨BuildResult.panicked, b2, t1 ++ t2⟩

/-- The value Build returns: the bundle or the error (or a panic). -/
def build (b : ConfigsBuilder) (env : BuildEnv) : BuildResult Configs :=
  (buildR b env).res

/-- The ghost trace of a Build call. -/
def buildTrace (b : ConfigsBuilder) (env : BuildEnv) : List BuildStep :=
  (buildR b env).trace

/-- Modelled from the spec: the logging installers are black-box services
that always hand back a usable (best-effort) logger handle alongside their
outcome, even when they also return an error. -/
def loggersPresent (env : BuildEnv) : Prop :=
  (∀ c, (env.otlpLoggerInstall c).1.isSome = true) ∧
  (∀ c, (env.noopLoggerInstall c).1.isSome = true)

/-- Keys are preserved by an append. -/
theorem hasKey_append (l1 l2 : KVList) (k : String) :
    hasKey (l1 ++ l2) k = (hasKey l1 k || hasKey l2 k) := by
  induction l1 with
  | nil => simp [hasKey]
  | cons p rest ih =>
    by_cases h : p.1 = k <;> simp [hasKey, h, ih]

/-- Unfolding lemma for hasKey on a cons cell. -/
theorem hasKey_cons (q : String × String) (t : KVList) (k : String) :
    hasKey (q :: t) k = if q.1 = k then true else hasKey t k := rfl

/-- Rewriting the entries of one key does not change which keys occur. -/
theorem hasKey_mapSet (l : KVList) (k d k' : String) :
    hasKey (mapSet l k d) k' = hasKey l k' := by
  induction l with
  | nil => rfl
  | cons p rest ih =>
    simp only [mapSet, List.map_cons] at ih ⊢
    by_cases h : p.1 = k
    · rw [if_pos h, hasKey_cons, hasKey_cons]
      by_cases h2 : k = k'
      · simp [h2, h.trans h2]
      · have hne : ¬ p.1 = k' := fun hh => h2 (h.symm.trans hh)
        simp [h2, hne, ih]
    · rw [if_neg h, hasKey_cons, hasKey_cons]
      by_cases h2 : p.1 = k'
      · simp [h2]
      · simp [h2, ih]

/-- The keys after a write are the old keys plus the written key. -/
theorem hasKey_setKV (l : KVList) (k d k' : String) :
    hasKey (setKV l k d) k' = (hasKey l k' || decide (k = k')) := by
  unfold setKV
  by_cases h : hasKey l k
  · simp only [h, if_true, hasKey_mapSet]
    by_cases hk : k = k'
    · subst hk; simp [h]
    · simp [hk]
  · simp only [h, Bool.false_eq_true, if_false, hasKey_append, hasKey_cons, hasKey]
    by_cases hk : k = k' <;> simp [hk]

/-- A written key is present afterwards. -/
theorem hasKey_setKV_self (l : KVList) (k d : String) :
    hasKey (setKV l k d) k = true := by
  simp [hasKey_setKV]

/-- Writes never remove keys. -/
theorem hasKey_applyAll (ps : KVList) :
    ∀ l k, hasKey l k = true → hasKey (applyAll l ps) k = true := by
  induction ps with
  | nil => intro l k h; exact h
  | cons p rest ih =>
    intro l k h
    have hrw : applyAll l (p :: rest) = applyAll (setKV l p.1 p.2) rest := rfl
    rw [hrw]
    exact ih _ _ (by simp [hasKey_setKV, h])

/-- An absent key labels no entry of the list. -/
theorem not_hasKey_forall (l : KVList) (k : String) (h : hasKey l k = false) :
    ∀ p ∈ l, p.1 ≠ k := by
  induction l with
  | nil => intro p hp; cases hp
  | cons q rest ih =>
    intro p hp
    rw [hasKey_cons] at h
    by_cases hq : q.1 = k
    · simp [hq] at h
    · simp [hq] at h
      rcases List.mem_cons.mp hp with hp | hp
      · subst hp; exact hq
      · exact ih h p hp

/-- Every entry with the given key carries the given value. -/
def keyOK (k d : String) (l : KVList) : Prop :=
  ∀ p ∈ l, p.1 = k → p.2 = d

/-- Pointwise-identity maps are the identity. -/
theorem map_self_of_mem {α : Type} (f : α → α) :
    ∀ l : List α, (∀ a ∈ l, f a = a) → l.map f = l := by
  intro l
  induction l with
  | nil => intro _; rfl
  | cons a rest ih =>
    intro h
    simp only [List.map_cons]
    rw [h a (by simp), ih (fun x hx => h x (by simp [hx]))]

/-- After rewriting key k to d, all k-entries carry d. -/
theorem keyOK_mapSet_self (l : KVList) (k d : String) : keyOK k d (mapSet l k d) := by
  intro p hp hk
  rcases List.mem_map.mp hp with ⟨q, _, rfl⟩
  by_cases h : q.1 = k
  · simp [h]
  · simp only [if_neg h] at hk ⊢
    exact absurd hk h

/-- After a write of (k, d), all k-entries carry d. -/
theorem keyOK_setKV_self (l : KVList) (k d : String) : keyOK k d (setKV l k d) := by
  unfold setKV
  by_cases h : hasKey l k
  · simpa [h] using keyOK_mapSet_self l k d
  · rw [if_neg (by simp [h])]
    intro p hp hk
    rcases List.mem_append.mp hp with hp | hp
    · exact absurd hk (not_hasKey_forall l k (by simpa using h) p hp)
    · simp at hp; simp [hp]

/-- A write of a different key preserves the value constraint for k. -/
theorem keyOK_setKV_other (l : KVList) (k d k' d' : String) (hne : k' ≠ k)
    (h : keyOK k d l) : keyOK k d (setKV l k' d') := by
  unfold setKV
  by_cases hk : hasKey l k'
  · rw [if_pos hk]
    intro p hp hpk
    rcases List.mem_map.mp hp with ⟨q, hq, rfl⟩
    by_cases hq1 : q.1 = k'
    · simp only [if_pos hq1] at hpk ⊢
      exact absurd hpk hne
    · simp only [if_neg hq1] at hpk ⊢
      exact h q hq hpk
  · rw [if_neg (by simp [hk])]
    intro p hp hpk
    rcases List.mem_append.mp hp with hp | hp
    · exact h p hp hpk
    · simp at hp
      subst hp
      exact absurd hpk hne

/-- Writes that avoid key k preserve the value constraint for k. -/
theorem keyOK_applyAll (ps : KVList) :
    ∀ l k d, (∀ p ∈ ps, p.1 ≠ k) → keyOK k d l → keyOK k d (applyAll l ps) := by
  induction ps with
  | nil => intro l k d _ h; exact h
  | cons p rest ih =>
    intro l k d hav h
    have hrw : applyAll l (p :: rest) = applyAll (setKV l p.1 p.2) rest := rfl
    rw [hrw]
    exact ih _ _ _ (fun q hq => hav q (by simp [hq]))
      (keyOK_setKV_other l k d p.1 p.2 (hav p (by simp)) h)

/-- Rewriting a key absent from the list does nothing. -/
theorem mapSet_of_not_hasKey (l : KVList) (k d : String) (h : hasKey l k = false) :
    mapSet l k d = l := by
  apply map_self_of_mem
  intro p hp
  simp [not_hasKey_forall l k h p hp]

/-- A write whose key is already present with the written value everywhere is
the identity. -/
theorem setKV_eq_self (l : KVList) (k d : String) (hk : hasKey l k = true)
    (hok : keyOK k d l) : setKV l k d = l := by
  unfold setKV
  rw [if_pos hk]
  apply map_self_of_mem
  intro p hp
  by_cases h : p.1 = k
  · have hv := hok p hp h
    rw [if_pos h]
    exact (Prod.ext h hv).symm
  · rw [if_neg h]

/-- Two successive rewrites of the same key collapse to the second. -/
theorem mapSet_mapSet (l : KVList) (k d d' : String) :
    mapSet (mapSet l k d) k d' = mapSet l k d' := by
  induction l with
  | nil => rfl
  | cons p rest ih =>
    simp only [mapSet, List.map_cons] at ih ⊢
    by_cases h : p.1 = k
    · simp [h, ih]
    · simp only [if_neg h, ih]

/-- Two successive writes of the same key collapse to the second. -/
theorem setKV_absorb (l : KVList) (k d d' : String) :
    setKV (setKV l k d) k d' = setKV l k d' := by
  by_cases hk : hasKey l k
  · unfold setKV
    simp only [hk, if_true, hasKey_mapSet, mapSet_mapSet]
  · have hk' : hasKey l k = false := by simpa using hk
    unfold setKV
    simp only [hk', Bool.false_eq_true, if_false, hasKey_append, hasKey_cons, hasKey,
      if_pos rfl, Bool.or_true, if_true]
    unfold mapSet
    rw [List.map_append]
    have h1 : List.map (fun p => if p.1 = k then (k, d') else p) l = l :=
      mapSet_of_not_hasKey l k d' hk'
    simp [h1]

/-- Rewrites for distinct keys commute. -/
theorem mapSet_comm (l : KVList) (k d k' d' : String) (hne : k ≠ k') :
    mapSet (mapSet l k d) k' d' = mapSet (mapSet l k' d') k d := by
  induction l with
  | nil => rfl
  | cons p rest ih =>
    simp only [mapSet, List.map_cons] at ih ⊢
    by_cases h : p.1 = k
    · have hne2 : ¬ p.1 = k' := fun hh => hne (h.symm.trans hh)
      simp only [if_pos h, if_neg hne, if_neg hne2, if_pos h, ih]
    · by_cases h' : p.1 = k'
      · simp only [if_neg h, if_pos h', if_neg (Ne.symm hne), ih]
      · simp only [if_neg h, if_neg h', ih]

/-- Writes for distinct keys commute when the first key is already present
(presence keeps the entry order on both sides). -/
theorem setKV_comm (l : KVList) (k d k' d' : String) (hne : k ≠ k')
    (hk : hasKey l k = true) :
    setKV (setKV l k d) k' d' = setKV (setKV l k' d') k d := by
  by_cases hk' : hasKey l k'
  · unfold setKV
    simp only [hk, hk', if_true, hasKey_mapSet, mapSet_comm l k d k' d' hne]
  · have hkf : hasKey l k' = false := by simpa using hk'
    unfold setKV
    simp only [hk, if_true, hasKey_mapSet, hkf, Bool.false_eq_true, if_false,
      hasKey_append, hasKey_cons, hasKey, if_pos rfl, Bool.or_true, if_true]
    unfold mapSet
    rw [List.map_append]
    simp [if_neg (Ne.symm hne)]

/-- A write of a key that a later write sequence writes again is absorbed,
provided the key is already present. -/
theorem applyAll_setKV_mem (ps : KVList) :
    ∀ l k d, hasKey l k = true → k ∈ ps.map Prod.fst →
      applyAll (setKV l k d) ps = applyAll l ps := by
  induction ps with
  | nil => intro l k d _ hm; cases hm
  | cons p rest ih =>
    intro l k d hk hm
    have hrw : ∀ m : KVList, applyAll m (p :: rest) = applyAll (setKV m p.1 p.2) rest :=
      fun m => rfl
    rw [hrw, hrw]
    by_cases hpk : p.1 = k
    · rw [← hpk, setKV_absorb]
    · have hmem : k ∈ rest.map Prod.fst := by
        rw [List.map_cons] at hm
        rcases List.mem_cons.mp hm with hm1 | hm1
        · exact absurd hm1.symm hpk
        · exact hm1
      rw [setKV_comm l k d p.1 p.2 (fun hh => hpk hh.symm) hk]
      exact ih (setKV l p.1 p.2) k d (by simp [hasKey_setKV, hk]) hmem

/-- Replaying a write sequence over its own result changes nothing: the
sequence rewrites every key it touched to the same final value. -/
theorem applyAll_idem (ps : KVList) :
    ∀ l, applyAll (applyAll l ps) ps = applyAll l ps := by
  induction ps with
  | nil => intro l; rfl
  | cons p rest ih =>
    intro l
    have hrw : ∀ m : KVList, applyAll m (p :: rest) = applyAll (setKV m p.1 p.2) rest :=
      fun m => rfl
    rw [hrw, hrw]
    have hkA : hasKey (applyAll (setKV l p.1 p.2) rest) p.1 = true :=
      hasKey_applyAll rest _ _ (hasKey_setKV_self l p.1 p.2)
    by_cases hmem : p.1 ∈ rest.map Prod.fst
    · rw [applyAll_setKV_mem rest _ p.1 p.2 hkA hmem]
      exact ih (setKV l p.1 p.2)
    · have havoid : ∀ q ∈ rest, q.1 ≠ p.1 := by
        intro q hq hqe
        exact hmem (hqe ▸ List.mem_map_of_mem Prod.fst hq)
      have hok : keyOK p.1 p.2 (applyAll (setKV l p.1 p.2) rest) :=
        keyOK_applyAll rest _ _ _ havoid (keyOK_setKV_self l p.1 p.2)
      rw [setKV_eq_self _ p.1 p.2 hkA hok]
      exact ih (setKV l p.1 p.2)

/-- Unfolding lemma for lookupKV on a cons cell. -/
theorem lookupKV_cons (q : String × String) (t : KVList) (k : String) :
    lookupKV (q :: t) k = if q.1 = k then some q.2 else lookupKV t k := rfl

/-- An absent key looks up to nothing. -/
theorem lookupKV_eq_none (l : KVList) (k : String) (h : hasKey l k = false) :
    lookupKV l k = none := by
  induction l with
  | nil => rfl
  | cons p rest ih =>
    rw [hasKey_cons] at h
    by_cases hp : p.1 = k
    · simp [hp] at h
    · rw [lookupKV_cons, if_neg hp]
      exact ih (by simpa [hp] using h)

/-- A lookup that misses the first list continues in the second. -/
theorem lookupKV_append_none (l1 l2 : KVList) (k : String)
    (h : lookupKV l1 k = none) : lookupKV (l1 ++ l2) k = lookupKV l2 k := by
  induction l1 with
  | nil => rfl
  | cons p rest ih =>
    rw [lookupKV_cons] at h
    by_cases hp : p.1 = k
    · simp [hp] at h
    · rw [List.cons_append, lookupKV_cons, if_neg hp]
      exact ih (by simpa [hp] using h)

/-- A lookup that hits the first list ignores the second. -/
theorem lookupKV_append_some (l1 l2 : KVList) (k x : String)
    (h : lookupKV l1 k = some x) : lookupKV (l1 ++ l2) k = some x := by
  induction l1 with
  | nil => cases h
  | cons p rest ih =>
    rw [lookupKV_cons] at h
    by_cases hp : p.1 = k
    · rw [List.cons_append, lookupKV_cons, if_pos hp]
      simpa [hp] using h
    · rw [List.cons_append, lookupKV_cons, if_neg hp]
      exact ih (by simpa [hp] using h)

/-- Rewriting a present key makes its lookup the new value. -/
theorem lookupKV_mapSet_self (l : KVList) (k d : String) (hk : hasKey l k = true) :
    lookupKV (mapSet l k d) k = some d := by
  induction l with
  | nil => cases hk
  | cons p rest ih =>
    simp only [mapSet, List.map_cons]
    by_cases h : p.1 = k
    · rw [if_pos h, lookupKV_cons, if_pos rfl]
    · rw [hasKey_cons, if_neg h] at hk
      rw [if_neg h, lookupKV_cons, if_neg h]
      exact ih hk

/-- Rewriting one key leaves lookups of other keys alone. -/
theorem lookupKV_mapSet_other (l : KVList) (k d k' : String) (hne : k' ≠ k) :
    lookupKV (mapSet l k d) k' = lookupKV l k' := by
  induction l with
  | nil => rfl
  | cons p rest ih =>
    simp only [mapSet, List.map_cons]
    by_cases h : p.1 = k
    · have h1 : ¬ k = k' := fun hh => hne hh.symm
      have h2 : ¬ p.1 = k' := fun hh => hne (h.symm.trans hh).symm
      rw [if_pos h, lookupKV_cons, lookupKV_cons, if_neg h1, if_neg h2]
      exact ih
    · rw [if_neg h, lookupKV_cons, lookupKV_cons]
      by_cases h2 : p.1 = k'
      · rw [if_pos h2, if_pos h2]
      · rw [if_neg h2, if_neg h2]
        exact ih

/-- Looking up the key just written yields the written value. -/
theorem lookupKV_setKV_self (l : KVList) (k d : String) :
    lookupKV (setKV l k d) k = some d := by
  unfold setKV
  by_cases hk : hasKey l k
  · rw [if_pos hk]
    exact lookupKV_mapSet_self l k d hk
  · have hk' : hasKey l k = false := by simpa using hk
    rw [if_neg (by simp [hk]), lookupKV_append_none l _ k (lookupKV_eq_none l k hk'),
      lookupKV_cons, if_pos rfl]

/-- A write of a different key does not change a lookup. -/
theorem lookupKV_setKV_other (l : KVList) (k d k' : String) (hne : k' ≠ k) :
    lookupKV (setKV l k d) k' = lookupKV l k' := by
  unfold setKV
  by_cases hk : hasKey l k
  · rw [if_pos hk]
    exact lookupKV_mapSet_other l k d k' hne
  · rw [if_neg (by simp [hk])]
    cases hcase : lookupKV l k' with
    | some x => exact lookupKV_append_some l _ k' x hcase
    | none =>
      rw [lookupKV_append_none l _ k' hcase, lookupKV_cons,
        if_neg (fun hh => hne hh.symm)]
      exact hcase.symm ▸ (lookupKV_eq_none [] k' rfl)

/-- A write sequence avoiding key k does not change its lookup. -/
theorem lookupKV_applyAll_avoid (ps : KVList) :
    ∀ l k, (∀ p ∈ ps, p.1 ≠ k) → lookupKV (applyAll l ps) k = lookupKV l k := by
  induction ps with
  | nil => intro l k _; rfl
  | cons p rest ih =>
    intro l k hav
    have hrw : applyAll l (p :: rest) = applyAll (setKV l p.1 p.2) rest := rfl
    rw [hrw, ih _ _ (fun q hq => hav q (by simp [hq]))]
    exact lookupKV_setKV_other l p.1 p.2 k (fun hh => hav p (by simp) hh.symm)

/-- When the written keys are distinct, each written pair is what its key
resolves to after the whole write sequence. -/
theorem lookupKV_applyAll_mem (ps : KVList) :
    ∀ l k d, (ps.map Prod.fst).Nodup → (k, d) ∈ ps →
      lookupKV (applyAll l ps) k = some d := by
  induction ps with
  | nil => intro l k d _ hm; cases hm
  | cons p rest ih =>
    intro l k d hnd hm
    rw [List.map_cons, List.nodup_cons] at hnd
    have hrw : applyAll l (p :: rest) = applyAll (setKV l p.1 p.2) rest := rfl
    rw [hrw]
    rcases List.mem_cons.mp hm with hm1 | hm1
    · rcases hm1.symm with rfl
      have havoid : ∀ q ∈ rest, q.1 ≠ k := by
        intro q hq hqe
        have hmm : q.1 ∈ rest.map Prod.fst := List.mem_map_of_mem Prod.fst hq
        rw [hqe] at hmm
        exact hnd.1 hmm
      rw [lookupKV_applyAll_avoid rest _ k havoid]
      exact lookupKV_setKV_self l k d
    · exact ih _ k d hnd.2 hm1

/-- The per-field loop of the Default Injector only rewrites the defaults
layer, applying exactly the write of the field's registered pair. -/
theorem loadFieldDefault_eq (v : Viper) (f : StructField) :
    loadFieldDefault v f =
      match registeredPair f with
      | none => v
      | some p => v.setDefault p.1 p.2 := by
  unfold loadFieldDefault registeredPair
  rcases f with ⟨fd, fm⟩
  cases fd with
  | none => rfl
  | some d =>
    simp only
    by_cases hd : d == ""
    · simp [hd]
    · simp only [hd, Bool.false_eq_true, if_false]
      cases fm with
      | none => rfl
      | some k =>
        simp only
        by_cases hk : k == "" <;> simp [hk]

/-- The Default Injector on a struct performs exactly the write sequence of
the schema's registered pairs on the defaults layer, leaving the live
environment and file layers untouched. -/
theorem foldl_loadFieldDefault (fs : List StructField) :
    ∀ v : Viper, fs.foldl loadFieldDefault v =
      { v with defaults := applyAll v.defaults (registeredPairs fs) } := by
  induction fs with
  | nil => intro v; rfl
  | cons f rest ih =>
    intro v
    rw [List.foldl_cons, ih (loadFieldDefault v f), loadFieldDefault_eq]
    unfold registeredPairs
    rw [List.filterMap_cons]
    cases hf : registeredPair f with
    | none => rfl
    | some p => rfl

/-- loadStructDefaults on a pointer to a struct is the write sequence of the
schema's registered pairs on the defaults layer. -/
theorem loadStructDefaults_ptr (v : Viper) (fs : List StructField) :
    loadStructDefaults v (GoValue.ptrVal (GoValue.structVal fs)) =
      { v with defaults := applyAll v.defaults (registeredPairs fs) } :=
  foldl_loadFieldDefault fs v

/-- loadStructDefaults on a bare struct value behaves the same way. -/
theorem loadStructDefaults_struct (v : Viper) (fs : List StructField) :
    loadStructDefaults v (GoValue.structVal fs) =
      { v with defaults := applyAll v.defaults (registeredPairs fs) } :=
  foldl_loadFieldDefault fs v

/-- Attaching a domain schema does not touch the logger. -/
theorem attachDomain_logger (c : Configs) (d : Domain) :
    (attachDomain c d).logger = c.logger := by
  cases d <;> rfl

/-- Attaching a domain schema populates exactly that domain's field. -/
theorem attachDomain_populated (c : Configs) (d x : Domain) :
    populated (attachDomain c d) x = (populated c x || decide (x = d)) := by
  cases d <;> cases x <;> simp [attachDomain, populated]

/-- The receiver comes back unchanged from newConfigs. -/
theorem newConfigsR_bOut (b : ConfigsBuilder) (env : BuildEnv) :
    (newConfigsR b env).bOut = b := by
  unfold newConfigsR
  rcases hv : env.viperResult with e | v
  · rfl
  · rcases ha : env.unmarshalApp
        (loadStructDefaults v (GoValue.ptrVal (GoValue.structVal env.appSchema))) with e | u
    · simp [ha]
    · simp only [ha]
      rcases ho : env.unmarshalOtlp
          (loadStructDefaults
            (loadStructDefaults v (GoValue.ptrVal (GoValue.structVal env.appSchema)))
            (GoValue.ptrVal (GoValue.structVal env.otlpSchema))) with e | u
      · simp [ho]
      · simp [ho]

/-- The receiver comes back unchanged from setupObservability. -/
theorem setupObservabilityR_bOut (b : ConfigsBuilder) (env : BuildEnv) (cfgs : Configs) :
    (setupObservabilityR b env cfgs).bOut = b := by
  unfold setupObservabilityR
  by_cases hb : b.otlp
  · simp only [hb, if_true]
    rcases h1 : (env.otlpLoggerInstall cfgs).2 with _ | e
    · simp only [h1]
      rcases h2 : (env.otlpTracingInstall { cfgs with logger := (env.otlpLoggerInstall cfgs).1 }).2 with _ | e
      · simp [h2]
      · rcases h3 : (env.otlpLoggerInstall cfgs).1 with _ | u <;> simp [h2, h3]
    · rcases h3 : (env.otlpLoggerInstall cfgs).1 with _ | u <;> simp [h1, h3]
  · simp only [hb, if_false, Bool.false_eq_true]
    rcases h1 : (env.noopLoggerInstall cfgs).2 with _ | e
    · simp [h1]
    · rcases h3 : (env.noopLoggerInstall cfgs).1 with _ | u <;> simp [h1, h3]


/-- The newConfigs trace never contains a domain step. -/
theorem newConfigsR_no_domain (b : ConfigsBuilder) (env : BuildEnv) :
    ∀ s ∈ (newConfigsR b env).trace, isDomainStep s = false := by
  intro s hs
  rcases hv : env.viperResult with e | v
  · simp [newConfigsR, hv] at hs
    simp [hs, isDomainStep]
  · rcases ha : env.unmarshalApp
        (loadStructDefaults v (GoValue.ptrVal (GoValue.structVal env.appSchema))) with e | u
    · simp [newConfigsR, hv, ha] at hs
      rcases hs with hs | hs <;> simp [hs, isDomainStep]
    · rcases ho : env.unmarshalOtlp
          (loadStructDefaults
            (loadStructDefaults v (GoValue.ptrVal (GoValue.structVal env.appSchema)))
            (GoValue.ptrVal (GoValue.structVal env.otlpSchema))) with e | u
      · simp [newConfigsR, hv, ha, ho] at hs
        rcases hs with hs | hs | hs <;> simp [hs, isDomainStep]
      · simp [newConfigsR, hv, ha, ho] at hs
        rcases hs with hs | hs | hs <;> simp [hs, isDomainStep]

/-- A successful newConfigs performed the environment-file load and both base
unmarshals, in that order. -/
theorem newConfigsR_ok_trace (b : ConfigsBuilder) (env : BuildEnv) (cfgs : Configs)
    (h : (newConfigsR b env).res = Except.ok cfgs) :
    (newConfigsR b env).trace =
      [BuildStep.viperSetup, BuildStep.unmarshalAppStep (Except.ok ()),
       BuildStep.unmarshalOtlpStep (Except.ok ())] := by
  rcases hv : env.viperResult with e | v
  · simp [newConfigsR, hv] at h
  · rcases ha : env.unmarshalApp
        (loadStructDefaults v (GoValue.ptrVal (GoValue.structVal env.appSchema))) with e | u
    · simp [newConfigsR, hv, ha] at h
    · rcases ho : env.unmarshalOtlp
          (loadStructDefaults
            (loadStructDefaults v (GoValue.ptrVal (GoValue.structVal env.appSchema)))
            (GoValue.ptrVal (GoValue.structVal env.otlpSchema))) with e | u
      · simp [newConfigsR, hv, ha, ho] at h
      · simp [newConfigsR, hv, ha, ho]

/-- A successful newConfigs returns the initial bundle: base and
observability configs present, no logger yet, and no domain populated. -/
theorem newConfigsR_ok_shape (b : ConfigsBuilder) (env : BuildEnv) (cfgs : Configs)
    (h : (newConfigsR b env).res = Except.ok cfgs) :
    cfgs.appConfigs = some () ∧ cfgs.otlpConfigs = some () ∧ cfgs.logger = none ∧
    ∀ d, populated cfgs d = false := by
  rcases hv : env.viperResult with e | v
  · simp [newConfigsR, hv] at h
  · rcases ha : env.unmarshalApp
        (loadStructDefaults v (GoValue.ptrVal (GoValue.structVal env.appSchema))) with e | u
    · simp [newConfigsR, hv, ha] at h
    · rcases ho : env.unmarshalOtlp
          (loadStructDefaults
            (loadStructDefaults v (GoValue.ptrVal (GoValue.structVal env.appSchema)))
            (GoValue.ptrVal (GoValue.structVal env.otlpSchema))) with e | u
      · simp [newConfigsR, hv, ha, ho] at h
      · simp [newConfigsR, hv, ha, ho] at h
        rw [← h]
        refine ⟨rfl, rfl, rfl, ?_⟩
        intro d
        cases d <;> rfl

/-- The observability trace never contains a domain step. -/
theorem setupObservabilityR_no_domain (b : ConfigsBuilder) (env : BuildEnv) (cfgs : Configs) :
    ∀ s ∈ (setupObservabilityR b env cfgs).trace, isDomainStep s = false := by
  intro s hs
  unfold setupObservabilityR at hs
  repeat' split at hs
  all_goals simp at hs
  all_goals rcases hs with rfl | rfl | rfl <;> rfl

/-- A successful observability setup only changed the bundle's logger: it
assigned the handle returned by the installer that ran. -/
theorem setupObservabilityR_ok_shape (b : ConfigsBuilder) (env : BuildEnv)
    (cfgs cfgs2 : Configs)
    (h : (setupObservabilityR b env cfgs).res = BuildResult.ok cfgs2) :
    (cfgs2 = { cfgs with logger := (env.otlpLoggerInstall cfgs).1 } ∧ b.otlp = true) ∨
    (cfgs2 = { cfgs with logger := (env.noopLoggerInstall cfgs).1 } ∧ b.otlp = false) := by
  unfold setupObservabilityR at h
  split at h
  case isTrue hb =>
    left
    refine ⟨?_, hb⟩
    repeat' split at h
    all_goals simp_all
  case isFalse hb =>
    right
    refine ⟨?_, by simpa using hb⟩
    repeat' split at h
    all_goals simp_all

/-- A successful observability setup installed a logger: its trace is either
the successful OTLP pair of installs or the successful no-op install. -/
theorem setupObservabilityR_ok_trace (b : ConfigsBuilder) (env : BuildEnv)
    (cfgs cfgs2 : Configs)
    (h : (setupObservabilityR b env cfgs).res = BuildResult.ok cfgs2) :
    (setupObservabilityR b env cfgs).trace =
      [BuildStep.installOtlpLoggerStep none, BuildStep.installOtlpTracerStep none] ∨
    (setupObservabilityR b env cfgs).trace = [BuildStep.installNoopLoggerStep none] := by
  unfold setupObservabilityR at h ⊢
  split at h
  case isTrue hb =>
    left
    rw [if_pos hb]
    repeat' split at h
    all_goals simp_all
  case isFalse hb =>
    right
    rw [if_neg hb]
    repeat' split at h
    all_goals simp_all

/-- Under present logger handles, a successful observability setup leaves a
logger in the bundle. -/
theorem setupObservabilityR_ok_logger (b : ConfigsBuilder) (env : BuildEnv)
    (cfgs cfgs2 : Configs) (hlp : loggersPresent env)
    (h : (setupObservabilityR b env cfgs).res = BuildResult.ok cfgs2) :
    cfgs2.logger.isSome = true := by
  rcases setupObservabilityR_ok_shape b env cfgs cfgs2 h with ⟨rfl, _⟩ | ⟨rfl, _⟩
  · exact hlp.1 cfgs
  · exact hlp.2 cfgs

/-- A successfully processed domain block keeps the logger. -/
theorem processDomainR_ok_logger (env : BuildEnv) (cfgs cfgs1 : Configs) (d : Domain)
    (h : (processDomainR env cfgs d).1 = BuildResult.ok cfgs1) :
    cfgs1.logger = cfgs.logger := by
  unfold processDomainR at h
  repeat' split at h
  all_goals simp_all
  rw [← h, attachDomain_logger]

/-- A successfully processed domain block populates exactly its own domain
on top of what was already populated. -/
theorem processDomainR_ok_populated (env : BuildEnv) (cfgs cfgs1 : Configs) (d : Domain)
    (h : (processDomainR env cfgs d).1 = BuildResult.ok cfgs1) :
    ∀ x, populated cfgs1 x = (populated cfgs x || decide (x = d)) := by
  unfold processDomainR at h
  repeat' split at h
  all_goals simp_all
  intro x
  rw [← h]
  have hcu : populated
      { attachDomain cfgs d with
        custom :=
          loadStructDefaults cfgs.custom
            (GoValue.ptrVal (GoValue.structVal (env.domainSchema d))) } x
      = populated (attachDomain cfgs d) x := by
    cases d <;> cases x <;> rfl
  rw [hcu, attachDomain_populated]

/-- The trace of one domain block is its own attempt, possibly followed by
the log of the failure. -/
theorem processDomainR_trace (env : BuildEnv) (cfgs : Configs) (d : Domain) :
    (∃ e, (processDomainR env cfgs d).2 =
        [BuildStep.domainStep d (Except.error e), BuildStep.errorLogged e]) ∨
    (∃ e, (processDomainR env cfgs d).2 = [BuildStep.domainStep d (Except.error e)]) ∨
    (processDomainR env cfgs d).2 = [BuildStep.domainStep d (Except.ok ())] := by
  unfold processDomainR
  repeat' split
  · right; left; exact ⟨_, rfl⟩
  · left; exact ⟨_, rfl⟩
  · right; right; rfl

/-- The domains attempted by the domain loop are, in order, an initial
segment of the enabled domains of the list being processed. -/
theorem processDomainsR_events (b : ConfigsBuilder) (env : BuildEnv) :
    ∀ (l : List Domain) (cfgs : Configs),
      (domainEvents (processDomainsR b env cfgs l).2).map Prod.fst <+:
        List.filter (fun x => enabled b x) l := by
  intro l
  induction l with
  | nil => intro cfgs; exact ⟨[], rfl⟩
  | cons d rest ih =>
    intro cfgs
    by_cases he : enabled b d
    · rw [List.filter_cons_of_pos he]
      rcases hu : env.unmarshalDomain d
          (loadStructDefaults cfgs.custom
            (GoValue.ptrVal (GoValue.structVal (env.domainSchema d)))) with e | u
      · rcases hl : cfgs.logger with _ | u2
        · simp only [processDomainsR, he, if_true, processDomainR, hu, hl]
          exact ⟨List.filter (fun x => enabled b x) rest, by simp [domainEvents]⟩
        · simp only [processDomainsR, he, if_true, processDomainR, hu, hl]
          exact ⟨List.filter (fun x => enabled b x) rest, by simp [domainEvents]⟩
      · simp only [processDomainsR, he, if_true, processDomainR, hu]
        rcases ih ({ attachDomain cfgs d with
          custom :=
            loadStructDefaults cfgs.custom
              (GoValue.ptrVal (GoValue.structVal (env.domainSchema d))) }) with ⟨t, ht⟩
        refine ⟨t, ?_⟩
        simp only [domainEvents, List.filterMap_append] at ht ⊢
        simp [← ht, domainEvents]
    · rw [List.filter_cons_of_neg he]
      simp only [processDomainsR, he, if_false, Bool.false_eq_true]
      exact ih cfgs

/-- Prefixes extend through a shared head. -/
theorem isPrefix_cons_cons {α : Type} (a : α) {l1 l2 : List α} (h : l1 <+: l2) :
    a :: l1 <+: a :: l2 := by
  rcases h with ⟨t, rfl⟩
  exact ⟨t, rfl⟩

/-- domainEvents distributes over append. -/
theorem domainEvents_append (t1 t2 : List BuildStep) :
    domainEvents (t1 ++ t2) = domainEvents t1 ++ domainEvents t2 := by
  simp [domainEvents]

/-- domainEvents picks up a domain step. -/
theorem domainEvents_cons_domain (d : Domain) (o : Except GoError Unit) (t : List BuildStep) :
    domainEvents (BuildStep.domainStep d o :: t) = (d, o) :: domainEvents t := rfl

/-- If some attempted domain failed to deserialize, the domain loop returned
that error, the failed attempt is the last one, every earlier attempt
succeeded, and the attempts form an initial segment of the enabled domains. -/
theorem processDomainsR_fail (b : ConfigsBuilder) (env : BuildEnv) :
    ∀ (l : List Domain) (cfgs : Configs), cfgs.logger.isSome = true →
      ∀ d e, (d, Except.error e) ∈ domainEvents (processDomainsR b env cfgs l).2 →
        (processDomainsR b env cfgs l).1 = BuildResult.err e ∧
        ∃ pre, domainEvents (processDomainsR b env cfgs l).2 =
            pre ++ [(d, Except.error e)] ∧
          (∀ p ∈ pre, p.2 = Except.ok ()) ∧
          (pre.map Prod.fst ++ [d]) <+: List.filter (fun x => enabled b x) l := by
  intro l
  induction l with
  | nil =>
    intro cfgs _ d e hm
    simp [processDomainsR, domainEvents] at hm
  | cons dd rest ih =>
    intro cfgs hlog d e hm
    by_cases he : enabled b dd
    · rcases hu : env.unmarshalDomain dd
          (loadStructDefaults cfgs.custom
            (GoValue.ptrVal (GoValue.structVal (env.domainSchema dd)))) with e2 | u
      · rcases ho : cfgs.logger with _ | u2
        · rw [ho] at hlog; cases hlog
        · simp only [processDomainsR, he, if_true, processDomainR, hu, ho] at hm ⊢
          simp [domainEvents] at hm
          rcases hm with ⟨rfl, rfl⟩
          refine ⟨rfl, [], by simp [domainEvents], by simp, ?_⟩
          rw [List.filter_cons_of_pos he]
          exact ⟨List.filter (fun x => enabled b x) rest, by simp⟩
      · simp only [processDomainsR, he, if_true, processDomainR, hu] at hm ⊢
        rw [domainEvents_append, domainEvents_cons_domain] at hm ⊢
        simp only [domainEvents, List.filterMap_nil, List.nil_append,
          List.singleton_append] at hm ⊢
        have hl1 : ({ attachDomain cfgs dd with
            custom :=
              loadStructDefaults cfgs.custom
                (GoValue.ptrVal (GoValue.structVal (env.domainSchema dd))) } :
            Configs).logger = cfgs.logger := attachDomain_logger cfgs dd
        rcases List.mem_cons.mp hm with heq | hm
        · simp at heq
        · have hrec := ih _ (by rw [hl1]; exact hlog) d e (by
            simpa [domainEvents] using hm)
          rcases hrec with ⟨hres, pre, hev, hpre, hpfx⟩
          refine ⟨hres, (dd, Except.ok ()) :: pre, ?_, ?_, ?_⟩
          · simp only [domainEvents] at hev
            rw [List.cons_append, hev]
          · intro p hp
            rcases List.mem_cons.mp hp with rfl | hp
            · rfl
            · exact hpre p hp
          · rw [List.filter_cons_of_pos he]
            simpa using isPrefix_cons_cons dd hpfx
    · simp only [processDomainsR, he, if_false, Bool.false_eq_true] at hm ⊢
      rw [List.filter_cons_of_neg he]
      exact ih cfgs hlog d e hm

/-- A successful domain loop populates exactly the enabled domains of its
list on top of what was already populated. -/
theorem processDomainsR_ok (b : ConfigsBuilder) (env : BuildEnv) :
    ∀ (l : List Domain) (cfgs cfgs2 : Configs),
      (processDomainsR b env cfgs l).1 = BuildResult.ok cfgs2 →
      ∀ x, populated cfgs2 x =
        (populated cfgs x || (enabled b x && decide (x ∈ l))) := by
  intro l
  induction l with
  | nil =>
    intro cfgs cfgs2 h x
    simp only [processDomainsR] at h
    cases h
    simp
  | cons dd rest ih =>
    intro cfgs cfgs2 h x
    by_cases he : enabled b dd
    · rcases hu : env.unmarshalDomain dd
          (loadStructDefaults cfgs.custom
            (GoValue.ptrVal (GoValue.structVal (env.domainSchema dd)))) with e2 | u
      · rcases ho : cfgs.logger with _ | u2 <;>
          simp only [processDomainsR, he, if_true, processDomainR, hu, ho] at h <;>
          cases h
      · simp only [processDomainsR, he, if_true, processDomainR, hu] at h
        have hstep := ih _ _ h x
        have hp1 : populated
            ({ attachDomain cfgs dd with
              custom :=
                loadStructDefaults cfgs.custom
                  (GoValue.ptrVal (GoValue.structVal (env.domainSchema dd))) } :
              Configs) x = (populated cfgs x || decide (x = dd)) := by
          have hcu : populated
              ({ attachDomain cfgs dd with
                custom :=
                  loadStructDefaults cfgs.custom
                    (GoValue.ptrVal (GoValue.structVal (env.domainSchema dd))) } :
                Configs) x = populated (attachDomain cfgs dd) x := by
            cases dd <;> cases x <;> rfl
          rw [hcu, attachDomain_populated]
        rw [hstep, hp1]
        by_cases hx : x = dd
        · subst hx
          simp [he]
        · simp [hx]
    · simp only [processDomainsR, he, if_false, Bool.false_eq_true] at h
      have hstep := ih _ _ h x
      rw [hstep]
      by_cases hx : x = dd
      · subst hx
        simp [he]
      · simp [hx]

/-- With a logger in the bundle, the domain loop never panics. -/
theorem processDomainsR_nopanic (b : ConfigsBuilder) (env : BuildEnv) :
    ∀ (l : List Domain) (cfgs : Configs), cfgs.logger.isSome = true →
      (processDomainsR b env cfgs l).1 ≠ BuildResult.panicked := by
  intro l
  induction l with
  | nil =>
    intro cfgs _ h
    cases h
  | cons dd rest ih =>
    intro cfgs hlog
    by_cases he : enabled b dd
    · rcases hu : env.unmarshalDomain dd
          (loadStructDefaults cfgs.custom
            (GoValue.ptrVal (GoValue.structVal (env.domainSchema dd)))) with e2 | u
      · rcases ho : cfgs.logger with _ | u2
        · rw [ho] at hlog; cases hlog
        · simp only [processDomainsR, he, if_true, processDomainR, hu, ho]
          intro h
          cases h
      · simp only [processDomainsR, he, if_true, processDomainR, hu]
        refine ih _ ?_
        rw [show ({ attachDomain cfgs dd with
            custom :=
              loadStructDefaults cfgs.custom
                (GoValue.ptrVal (GoValue.structVal (env.domainSchema dd))) } :
            Configs).logger = cfgs.logger from attachDomain_logger cfgs dd]
        exact hlog
    · simp only [processDomainsR, he, if_false, Bool.false_eq_true]
      exact ih cfgs hlog

/-- C1 (counterexample): with two fields sharing the mapping key K and
distinct defaults, the store holds no explicit value for K, the first field
carries both annotations with declared default a, yet injection followed by
deserialization yields b, the default of the later field, not a. -/
theorem c1_counterexample :
    Viper.explicitGet ⟨[], [], []⟩ "K" = none ∧
    (⟨some "a", some "K"⟩ : StructField) ∈
      [(⟨some "a", some "K"⟩ : StructField), ⟨some "b", some "K"⟩] ∧
    unmarshalField
      (loadStructDefaults ⟨[], [], []⟩
        (GoValue.ptrVal (GoValue.structVal
          [⟨some "a", some "K"⟩, ⟨some "b", some "K"⟩]))) "K" = some "b" ∧
    (some "b" : Option String) ≠ some "a" := by
  refine ⟨rfl, by simp, by decide, by decide⟩

/-- C1 (amended): when the mapping keys registered by the schema are
pairwise distinct, injecting defaults and then deserializing a field that
registered the pair (k, d) yields the explicit live-or-file value for k when
the store has one, and the declared default d otherwise. -/
theorem c1_defaults_precedence (v : Viper) (fs : List StructField) (k d : String)
    (hnd : ((registeredPairs fs).map Prod.fst).Nodup)
    (hmem : (k, d) ∈ registeredPairs fs) :
    unmarshalField (loadStructDefaults v (GoValue.ptrVal (GoValue.structVal fs))) k
      = some ((v.explicitGet k).getD d) := by
  rw [unmarshalField, loadStructDefaults_ptr]
  unfold Viper.get Viper.explicitGet
  cases he : lookupKV v.envVars k with
  | some x => simp [he]
  | none =>
    cases hf : lookupKV v.fileVars k with
    | some x => simp [he, hf]
    | none =>
      simp only [he, hf]
      simp [lookupKV_applyAll_mem (registeredPairs fs) v.defaults k d hnd hmem]

/-- C1 (witness): a schema declaring default 8080 for HTTP_PORT, a store
whose only explicit value is HTTP_HOST; the resolved port is the default. -/
theorem c1_defaults_precedence_witness :
    (((registeredPairs [⟨some "8080", some "HTTP_PORT"⟩]).map Prod.fst).Nodup ∧
      ("HTTP_PORT", "8080") ∈ registeredPairs [⟨some "8080", some "HTTP_PORT"⟩]) ∧
    unmarshalField
      (loadStructDefaults ⟨[("HTTP_HOST", "localhost")], [], []⟩
        (GoValue.ptrVal (GoValue.structVal [⟨some "8080", some "HTTP_PORT"⟩])))
      "HTTP_PORT" = some "8080" :=
  ⟨⟨by decide, by decide⟩,
    c1_defaults_precedence ⟨[("HTTP_HOST", "localhost")], [], []⟩
      [⟨some "8080", some "HTTP_PORT"⟩] "HTTP_PORT" "8080" (by decide) (by decide)⟩

/-- C2: the Default Injector on a pointer to a struct registers in the store
exactly the (mappingKey, defaultValue) pairs of the fields declaring both a
non-empty default annotation and a non-empty mapping key, in declaration
order, touching only the defaults layer; a field missing either annotation
registers nothing. -/
theorem c2_registers_exactly (v : Viper) (fs : List StructField) :
    loadStructDefaults v (GoValue.ptrVal (GoValue.structVal fs)) =
      { v with defaults := applyAll v.defaults (registeredPairs fs) } ∧
    ∀ f : StructField, f.defaultTag = none ∨ f.mapstructureTag = none →
      registeredPair f = none := by
  refine ⟨loadStructDefaults_ptr v fs, ?_⟩
  intro f hf
  rcases f with ⟨fd, fm⟩
  rcases hf with hf | hf
  · simp at hf
    simp [registeredPair, hf]
  · simp at hf
    subst hf
    unfold registeredPair
    cases fd with
    | none => rfl
    | some d =>
      simp only
      by_cases hd : d == "" <;> simp [hd]

/-- C2 (witness): one field with both annotations and one with a default but
no mapping key: only the first pair is registered. -/
theorem c2_registers_exactly_witness :
    loadStructDefaults ⟨[], [], []⟩
      (GoValue.ptrVal (GoValue.structVal
        [⟨some "8080", some "HTTP_PORT"⟩, ⟨some "x", none⟩])) =
      { envVars := [], fileVars := [],
        defaults :=
          applyAll []
            (registeredPairs
              [⟨some "8080", some "HTTP_PORT"⟩, ⟨some "x", none⟩]) } ∧
    registeredPair ⟨some "x", none⟩ = none :=
  ⟨(c2_registers_exactly ⟨[], [], []⟩
      [⟨some "8080", some "HTTP_PORT"⟩, ⟨some "x", none⟩]).1,
    (c2_registers_exactly ⟨[], [], []⟩
      [⟨some "8080", some "HTTP_PORT"⟩, ⟨some "x", none⟩]).2
      ⟨some "x", none⟩ (Or.inr rfl)⟩

/-- C6: running the Default Injector twice in succession over the same store
and schema leaves the store exactly as running it once. -/
theorem c6_inject_idempotent (v : Viper) (x : GoValue) :
    loadStructDefaults (loadStructDefaults v x) x = loadStructDefaults v x := by
  cases x with
  | structVal fs =>
    rw [loadStructDefaults_struct v fs, loadStructDefaults_struct]
    simp [applyAll_idem]
  | primVal => rfl
  | ptrVal inner =>
    cases inner with
    | structVal fs =>
      rw [loadStructDefaults_ptr v fs, loadStructDefaults_ptr]
      simp [applyAll_idem]
    | primVal => rfl
    | ptrVal y => rfl

/-- C8: an input that is neither a struct nor a pointer to a struct makes
loadStructDefaults return without error and leave the store unchanged. -/
theorem c8_non_struct_noop (v : Viper) (x : GoValue) (h : isStructLike x = false) :
    loadStructDefaults v x = v := by
  cases x with
  | structVal fs => simp [isStructLike] at h
  | primVal => rfl
  | ptrVal inner =>
    cases inner with
    | structVal fs => simp [isStructLike] at h
    | primVal => rfl
    | ptrVal y => rfl

/-- C8 (witness): a non-struct value against a non-trivial store. -/
theorem c8_non_struct_noop_witness :
    isStructLike GoValue.primVal = false ∧
    loadStructDefaults ⟨[("A", "1")], [("B", "2")], [("C", "3")]⟩ GoValue.primVal =
      ⟨[("A", "1")], [("B", "2")], [("C", "3")]⟩ :=
  ⟨rfl, c8_non_struct_noop ⟨[("A", "1")], [("B", "2")], [("C", "3")]⟩
    GoValue.primVal rfl⟩

/-- C9: each enable method sets exactly its own flag to true, leaves every
other flag and the deferred error slot unchanged, returns the builder for
chaining without any failure path, and never resets a flag that is true. -/
theorem c9_enable_methods (b : ConfigsBuilder) (s x : Switch) :
    switchFlag (enableSwitch s b) x = (decide (x = s) || switchFlag b x) ∧
    (enableSwitch s b).Err = b.Err ∧
    (switchFlag b x = true → switchFlag (enableSwitch s b) x = true) := by
  refine ⟨?_, ?_, ?_⟩
  · cases s <;> cases x <;>
      simp [enableSwitch, switchFlag, ConfigsBuilder.HTTP, ConfigsBuilder.Otlp,
        ConfigsBuilder.Postgres, ConfigsBuilder.Identity, ConfigsBuilder.MQTT,
        ConfigsBuilder.RabbitMQ, ConfigsBuilder.AWS, ConfigsBuilder.DynamoDB]
  · cases s <;> rfl
  · intro hx
    cases s <;> cases x <;>
      simp_all [enableSwitch, switchFlag, ConfigsBuilder.HTTP, ConfigsBuilder.Otlp,
        ConfigsBuilder.Postgres, ConfigsBuilder.Identity, ConfigsBuilder.MQTT,
        ConfigsBuilder.RabbitMQ, ConfigsBuilder.AWS, ConfigsBuilder.DynamoDB]

/-- C9 (witness): enabling HTTP on a builder that already has Postgres set
keeps Postgres, sets HTTP, and keeps the error slot. -/
theorem c9_enable_methods_witness :
    switchFlag (enableSwitch Switch.http (NewConfigsBuilder.Postgres)) Switch.postgres =
      (decide (Switch.postgres = Switch.http) ||
        switchFlag NewConfigsBuilder.Postgres Switch.postgres) ∧
    (enableSwitch Switch.http (NewConfigsBuilder.Postgres)).Err =
      NewConfigsBuilder.Postgres.Err ∧
    (switchFlag NewConfigsBuilder.Postgres Switch.postgres = true →
      switchFlag (enableSwitch Switch.http (NewConfigsBuilder.Postgres)) Switch.postgres = true) :=
  c9_enable_methods NewConfigsBuilder.Postgres Switch.http Switch.postgres

/-- Changing only the logger of a bundle does not change which domains are
populated. -/
theorem populated_logger (c : Configs) (lg : Option Unit) (x : Domain) :
    populated { c with logger := lg } x = populated c x := by
  cases x <;> rfl

/-- A trace without domain steps has no domain events. -/
theorem domainEvents_eq_nil (t : List BuildStep)
    (h : ∀ s ∈ t, isDomainStep s = false) : domainEvents t = [] := by
  induction t with
  | nil => rfl
  | cons s rest ih =>
    have hs := h s (by simp)
    have hrest := ih (fun x hx => h x (by simp [hx]))
    cases s <;> simp [isDomainStep] at hs ⊢
    all_goals simpa [domainEvents] using hrest

/-- Every domain belongs to the fixed processing order. -/
theorem mem_domainOrder (d : Domain) : d ∈ domainOrder := by
  cases d <;> simp [domainOrder]

/-- C10: Build hands the receiver back untouched: every enablement flag and
the deferred error slot hold their pre-call values after Build returns; the
error slot is nil at construction and no enable method ever writes it. -/
theorem c10_build_never_mutates (b : ConfigsBuilder) (env : BuildEnv) :
    (buildR b env).bOut = b ∧ NewConfigsBuilder.Err = none ∧
    ∀ s, (enableSwitch s b).Err = b.Err := by
  refine ⟨?_, rfl, fun s => by cases s <;> rfl⟩
  unfold buildR
  rcases hn : newConfigsR b env with ⟨res1, b1, t1⟩
  have hb1 : b1 = b := by
    have h := newConfigsR_bOut b env
    rw [hn] at h
    exact h
  rw [hb1]
  cases res1 with
  | error e => rfl
  | ok cfgs0 =>
    dsimp only
    rcases hs2 : setupObservabilityR b env cfgs0 with ⟨res2, b2, t2⟩
    have hb2 : b2 = b := by
      have h := setupObservabilityR_bOut b env cfgs0
      rw [hs2] at h
      exact h
    rw [hb2]
    cases res2 <;> rfl

/-- C10 (witness): a concrete Build run returns the builder unchanged. -/
theorem c10_build_never_mutates_witness :
    (buildR NewConfigsBuilder.HTTP
        { viperResult := Except.ok ⟨[], [], []⟩, appSchema := [], otlpSchema := [],
          domainSchema := fun _ => [], unmarshalApp := fun _ => Except.ok (),
          unmarshalOtlp := fun _ => Except.ok (),
          unmarshalDomain := fun _ _ => Except.ok (),
          otlpLoggerInstall := fun _ => (some (), none),
          otlpTracingInstall := fun _ => (some (), none),
          noopLoggerInstall := fun _ => (some (), none) }).bOut =
      NewConfigsBuilder.HTTP ∧
    NewConfigsBuilder.Err = none ∧
    ∀ s, (enableSwitch s NewConfigsBuilder.HTTP).Err = NewConfigsBuilder.HTTP.Err :=
  c10_build_never_mutates NewConfigsBuilder.HTTP
    { viperResult := Except.ok ⟨[], [], []⟩, appSchema := [], otlpSchema := [],
      domainSchema := fun _ => [], unmarshalApp := fun _ => Except.ok (),
      unmarshalOtlp := fun _ => Except.ok (),
      unmarshalDomain := fun _ _ => Except.ok (),
      otlpLoggerInstall := fun _ => (some (), none),
      otlpTracingInstall := fun _ => (some (), none),
      noopLoggerInstall := fun _ => (some (), none) }

/-- C4: a successful Build returns a bundle populating exactly the optional
per-domain fields whose flags are set; the field of every disabled domain
stays absent. -/
theorem c4_populates_exactly_enabled (b : ConfigsBuilder) (env : BuildEnv)
    (cfgs : Configs) (h : build b env = BuildResult.ok cfgs) :
    ∀ d, populated cfgs d = enabled b d := by
  intro d
  unfold build buildR at h
  rcases hn : newConfigsR b env with ⟨res1, b1, t1⟩
  have hb1 : b1 = b := by
    have hx := newConfigsR_bOut b env
    rw [hn] at hx
    exact hx
  rw [hb1] at hn
  rw [hn] at h
  cases res1 with
  | error e => simp at h
  | ok cfgs0 =>
    dsimp only at h
    rcases hs2 : setupObservabilityR b env cfgs0 with ⟨res2, b2, t2⟩
    have hb2 : b2 = b := by
      have hx := setupObservabilityR_bOut b env cfgs0
      rw [hs2] at hx
      exact hx
    rw [hb2] at hs2
    rw [hs2] at h
    cases res2 with
    | err e => simp at h
    | panicked => simp at h
    | ok cfgs1 =>
      dsimp only at h
      have hres : (processDomainsR b env cfgs1 domainOrder).1 = BuildResult.ok cfgs := h
      have hpop := processDomainsR_ok b env domainOrder cfgs1 cfgs hres d
      have hshape := setupObservabilityR_ok_shape b env cfgs0 cfgs1
        (by rw [hs2])
      have hinit := newConfigsR_ok_shape b env cfgs0 (by rw [hn])
      have h0 : populated cfgs1 d = false := by
        rcases hshape with ⟨rfl, _⟩ | ⟨rfl, _⟩ <;>
          rw [populated_logger] <;> exact hinit.2.2.2 d
      rw [hpop, h0]
      simp [mem_domainOrder d]

/-- A benign environment: empty store, empty schemas, every unmarshal and
every installer succeeds, installers return a logger handle. -/
def envAllOk : BuildEnv :=
  { viperResult := Except.ok ⟨[], [], []⟩, appSchema := [], otlpSchema := [],
    domainSchema := fun _ => [], unmarshalApp := fun _ => Except.ok (),
    unmarshalOtlp := fun _ => Except.ok (),
    unmarshalDomain := fun _ _ => Except.ok (),
    otlpLoggerInstall := fun _ => (some (), none),
    otlpTracingInstall := fun _ => (some (), none),
    noopLoggerInstall := fun _ => (some (), none) }

/-- C4 (witness): enabling only HTTP in the benign environment builds a
bundle whose only populated optional field is the HTTP one. -/
theorem c4_populates_exactly_enabled_witness :
    build NewConfigsBuilder.HTTP envAllOk =
      BuildResult.ok
        { appConfigs := some (), otlpConfigs := some (), custom := ⟨[], [], []⟩,
          logger := some (), httpConfigs := some (), postgresConfigs := none,
          identityConfigs := none, mqttConfigs := none, rabbitmqConfigs := none,
          awsConfigs := none, dynamoDBConfigs := none } ∧
    ∀ d, populated
        { appConfigs := some (), otlpConfigs := some (), custom := ⟨[], [], []⟩,
          logger := some (), httpConfigs := some (), postgresConfigs := none,
          identityConfigs := none, mqttConfigs := none, rabbitmqConfigs := none,
          awsConfigs := none, dynamoDBConfigs := none } d =
      enabled NewConfigsBuilder.HTTP d :=
  ⟨by decide,
    fun d => c4_populates_exactly_enabled NewConfigsBuilder.HTTP envAllOk
      { appConfigs := some (), otlpConfigs := some (), custom := ⟨[], [], []⟩,
        logger := some (), httpConfigs := some (), postgresConfigs := none,
        identityConfigs := none, mqttConfigs := none, rabbitmqConfigs := none,
        awsConfigs := none, dynamoDBConfigs := none } (by decide) d⟩

/-- C5: every Build run splits into a base phase with no domain processing
followed by the domain attempts; the attempted domains are, in order, an
initial segment of the enabled domains in the fixed order HTTP, Postgres,
Identity, MQTT, RabbitMQ, AWS, DynamoDB; and if any domain was touched, the
base phase had already loaded the application and observability configs and
installed a logger. -/
theorem c5_fixed_order (b : ConfigsBuilder) (env : BuildEnv) :
    ∃ tBase tDom,
      buildTrace b env = tBase ++ tDom ∧
      (∀ s ∈ tBase, isDomainStep s = false) ∧
      (domainEvents tDom).map Prod.fst <+:
        List.filter (fun x => enabled b x) domainOrder ∧
      (tDom ≠ [] →
        BuildStep.unmarshalAppStep (Except.ok ()) ∈ tBase ∧
        BuildStep.unmarshalOtlpStep (Except.ok ()) ∈ tBase ∧
        (BuildStep.installOtlpLoggerStep none ∈ tBase ∨
          BuildStep.installNoopLoggerStep none ∈ tBase)) := by
  unfold buildTrace buildR
  rcases hn : newConfigsR b env with ⟨res1, b1, t1⟩
  have hb1 : b1 = b := by
    have hx := newConfigsR_bOut b env
    rw [hn] at hx
    exact hx
  rw [hb1] at hn
  rw [hb1]
  have ht1 := newConfigsR_no_domain b env
  rw [hn] at ht1
  dsimp only at ht1
  cases res1 with
  | error e =>
    dsimp only
    exact ⟨t1, [], by simp, ht1, ⟨List.filter (fun x => enabled b x) domainOrder, by simp [domainEvents]⟩, fun hc => absurd rfl hc⟩
  | ok cfgs0 =>
    dsimp only
    rcases hs2 : setupObservabilityR b env cfgs0 with ⟨res2, b2, t2⟩
    have hb2 : b2 = b := by
      have hx := setupObservabilityR_bOut b env cfgs0
      rw [hs2] at hx
      exact hx
    rw [hb2] at hs2
    rw [hb2]
    have ht2 := setupObservabilityR_no_domain b env cfgs0
    rw [hs2] at ht2
    dsimp only at ht2
    have hboth : ∀ s ∈ t1 ++ t2, isDomainStep s = false := by
      intro s hs
      rcases List.mem_append.mp hs with hs | hs
      · exact ht1 s hs
      · exact ht2 s hs
    cases res2 with
    | err e =>
      dsimp only
      exact ⟨t1 ++ t2, [], by simp, hboth, ⟨List.filter (fun x => enabled b x) domainOrder, by simp [domainEvents]⟩,
        fun hc => absurd rfl hc⟩
    | panicked =>
      dsimp only
      exact ⟨t1 ++ t2, [], by simp, hboth, ⟨List.filter (fun x => enabled b x) domainOrder, by simp [domainEvents]⟩,
        fun hc => absurd rfl hc⟩
    | ok cfgs1 =>
      dsimp only
      refine ⟨t1 ++ t2, (processDomainsR b env cfgs1 domainOrder).2, rfl, hboth,
        processDomainsR_events b env domainOrder cfgs1, fun _ => ?_⟩
      have htr1 := newConfigsR_ok_trace b env cfgs0 (by rw [hn])
      rw [hn] at htr1
      dsimp only at htr1
      have htr2 := setupObservabilityR_ok_trace b env cfgs0 cfgs1 (by rw [hs2])
      rw [hs2] at htr2
      dsimp only at htr2
      subst htr1
      refine ⟨by simp, by simp, ?_⟩
      rcases htr2 with h2 | h2 <;> subst h2
      · left; simp
      · right; simp

/-- C3: if an enabled domain fails to deserialize inside Build, Build
returns nil bundle plus that error, the failed attempt is the last domain
event of the run (no later domain is deserialized or attached), every
earlier attempt succeeded, and the attempts form an initial segment of the
enabled domains in processing order.  Requires the installers to hand back
logger handles, as the spec's observability contract guarantees. -/
theorem c3_short_circuit (b : ConfigsBuilder) (env : BuildEnv)
    (hlp : loggersPresent env) (d : Domain) (e : GoError)
    (hfail : (d, Except.error e) ∈ domainEvents (buildTrace b env)) :
    build b env = BuildResult.err e ∧
    ∃ pre, domainEvents (buildTrace b env) = pre ++ [(d, Except.error e)] ∧
      (∀ p ∈ pre, p.2 = Except.ok ()) ∧
      (pre.map Prod.fst ++ [d]) <+:
        List.filter (fun x => enabled b x) domainOrder := by
  unfold buildTrace buildR at hfail
  unfold build buildTrace buildR
  rcases hn : newConfigsR b env with ⟨res1, b1, t1⟩
  have hb1 : b1 = b := by
    have hx := newConfigsR_bOut b env
    rw [hn] at hx
    exact hx
  rw [hb1] at hn ⊢
  rw [hn] at hfail
  have ht1 := newConfigsR_no_domain b env
  rw [hn] at ht1
  dsimp only at ht1
  cases res1 with
  | error e2 =>
    dsimp only at hfail
    rw [domainEvents_eq_nil t1 ht1] at hfail
    cases hfail
  | ok cfgs0 =>
    dsimp only at hfail ⊢
    rcases hs2 : setupObservabilityR b env cfgs0 with ⟨res2, b2, t2⟩
    have hb2 : b2 = b := by
      have hx := setupObservabilityR_bOut b env cfgs0
      rw [hs2] at hx
      exact hx
    rw [hb2] at hs2 ⊢
    rw [hs2] at hfail
    have ht2 := setupObservabilityR_no_domain b env cfgs0
    rw [hs2] at ht2
    dsimp only at ht2
    cases res2 with
    | err e2 =>
      dsimp only at hfail
      rw [domainEvents_append, domainEvents_eq_nil t1 ht1,
        domainEvents_eq_nil t2 ht2] at hfail
      cases hfail
    | panicked =>
      dsimp only at hfail
      rw [domainEvents_append, domainEvents_eq_nil t1 ht1,
        domainEvents_eq_nil t2 ht2] at hfail
      cases hfail
    | ok cfgs1 =>
      dsimp only at hfail ⊢
      have hlog : cfgs1.logger.isSome = true :=
        setupObservabilityR_ok_logger b env cfgs0 cfgs1 hlp (by rw [hs2])
      have hev : domainEvents ((t1 ++ t2) ++ (processDomainsR b env cfgs1 domainOrder).2)
          = domainEvents (processDomainsR b env cfgs1 domainOrder).2 := by
        rw [domainEvents_append, domainEvents_append, domainEvents_eq_nil t1 ht1,
          domainEvents_eq_nil t2 ht2]
        rfl
      rw [hev] at hfail
      have hmain := processDomainsR_fail b env domainOrder cfgs1 hlog d e hfail
      rw [hev]
      exact hmain

/-- C3 (witness): HTTP and Postgres enabled, HTTP deserializes but Postgres
fails; Build returns that error and Postgres is the last attempted domain. -/
theorem c3_short_circuit_witness :
    (loggersPresent
        { envAllOk with
          unmarshalDomain := fun d _ =>
            if d = Domain.postgres then Except.error "bad postgres" else Except.ok () } ∧
      (Domain.postgres, Except.error "bad postgres") ∈
        domainEvents (buildTrace NewConfigsBuilder.HTTP.Postgres
          { envAllOk with
            unmarshalDomain := fun d _ =>
              if d = Domain.postgres then Except.error "bad postgres" else Except.ok () })) ∧
    build NewConfigsBuilder.HTTP.Postgres
        { envAllOk with
          unmarshalDomain := fun d _ =>
            if d = Domain.postgres then Except.error "bad postgres" else Except.ok () } =
      BuildResult.err "bad postgres" :=
  ⟨⟨⟨fun _ => rfl, fun _ => rfl⟩, by decide⟩,
    (c3_short_circuit NewConfigsBuilder.HTTP.Postgres
      { envAllOk with
        unmarshalDomain := fun d _ =>
          if d = Domain.postgres then Except.error "bad postgres" else Except.ok () }
      ⟨fun _ => rfl, fun _ => rfl⟩ Domain.postgres "bad postgres" (by decide)).1⟩

/-- When an installer invoked by the observability setup returns an error
and hands back a best-effort logger handle, the setup logs the error and
returns it rather than panicking. -/
theorem setupObservabilityR_installer_err (b : ConfigsBuilder) (env : BuildEnv)
    (cfgs : Configs) (hlp : loggersPresent env) (e : GoError)
    (hc : (b.otlp = true ∧ (env.otlpLoggerInstall cfgs).2 = some e) ∨
          (b.otlp = true ∧ (env.otlpLoggerInstall cfgs).2 = none ∧
            (env.otlpTracingInstall
              { cfgs with logger := (env.otlpLoggerInstall cfgs).1 }).2 = some e) ∨
          (b.otlp = false ∧ (env.noopLoggerInstall cfgs).2 = some e)) :
    (setupObservabilityR b env cfgs).res = BuildResult.err e ∧
    BuildStep.errorLogged e ∈ (setupObservabilityR b env cfgs).trace := by
  have h1 := hlp.1 cfgs
  have h2 := hlp.2 cfgs
  rcases hc with ⟨hb, hc⟩ | ⟨hb, hc1, hc2⟩ | ⟨hb, hc⟩
  · rcases h3 : (env.otlpLoggerInstall cfgs).1 with _ | u
    · simp [h3] at h1
    · constructor <;> simp [setupObservabilityR, hb, hc, h3]
  · rcases h3 : (env.otlpLoggerInstall cfgs).1 with _ | u
    · simp [h3] at h1
    · rw [h3] at hc2
      constructor <;> simp [setupObservabilityR, hb, hc1, hc2, h3]
  · rcases h3 : (env.noopLoggerInstall cfgs).1 with _ | u
    · simp [h3] at h2
    · constructor <;> simp [setupObservabilityR, hb, hc, h3]

/-- When the installers hand back logger handles, the observability setup
never panics. -/
theorem setupObservabilityR_nopanic (b : ConfigsBuilder) (env : BuildEnv)
    (cfgs : Configs) (hlp : loggersPresent env) :
    (setupObservabilityR b env cfgs).res ≠ BuildResult.panicked := by
  have h1 := hlp.1 cfgs
  have h2 := hlp.2 cfgs
  intro h
  unfold setupObservabilityR at h
  repeat' split at h
  all_goals simp_all

/-- C7: when an observability installer returns an error during Build, the
Assembler does not panic: with best-effort logger handles available, Build
never reaches the panicked outcome at all, and an installer error is logged
and returned to the caller as the Build error. -/
theorem c7_installer_error_no_panic (b : ConfigsBuilder) (env : BuildEnv)
    (hlp : loggersPresent env) :
    build b env ≠ BuildResult.panicked ∧
    (∀ cfgs e, (newConfigsR b env).res = Except.ok cfgs →
      ((b.otlp = true ∧ (env.otlpLoggerInstall cfgs).2 = some e) ∨
       (b.otlp = true ∧ (env.otlpLoggerInstall cfgs).2 = none ∧
         (env.otlpTracingInstall
           { cfgs with logger := (env.otlpLoggerInstall cfgs).1 }).2 = some e) ∨
       (b.otlp = false ∧ (env.noopLoggerInstall cfgs).2 = some e)) →
      build b env = BuildResult.err e ∧
      BuildStep.errorLogged e ∈ buildTrace b env) := by
  unfold build buildTrace buildR
  rcases hn : newConfigsR b env with ⟨res1, b1, t1⟩
  have hb1 : b1 = b := by
    have hx := newConfigsR_bOut b env
    rw [hn] at hx
    exact hx
  rw [hb1] at hn ⊢
  cases res1 with
  | error e2 =>
    dsimp only
    refine ⟨(fun h => by cases h), fun cfgs e hok => ?_⟩
    have hx : Except.error e2 = Except.ok cfgs := hok
    cases hx
  | ok cfgs0 =>
    dsimp only
    rcases hs2 : setupObservabilityR b env cfgs0 with ⟨res2, b2, t2⟩
    have hb2 : b2 = b := by
      have hx := setupObservabilityR_bOut b env cfgs0
      rw [hs2] at hx
      exact hx
    rw [hb2] at hs2 ⊢
    constructor
    · cases res2 with
      | err e2 => dsimp only; intro h; cases h
      | panicked =>
        exfalso
        have hx := setupObservabilityR_nopanic b env cfgs0 hlp
        rw [hs2] at hx
        exact hx rfl
      | ok cfgs1 =>
        dsimp only
        have hlog : cfgs1.logger.isSome = true :=
          setupObservabilityR_ok_logger b env cfgs0 cfgs1 hlp (by rw [hs2])
        exact processDomainsR_nopanic b env domainOrder cfgs1 hlog
    · intro cfgs e hok hcond
      have hcfgs : cfgs0 = cfgs := by
        have hx : Except.ok cfgs0 = Except.ok cfgs := hok
        cases hx
        rfl
      subst hcfgs
      have herr := setupObservabilityR_installer_err b env cfgs0 hlp e hcond
      rw [hs2] at herr
      dsimp only at herr
      cases res2 with
      | err e2 =>
        dsimp only
        rcases herr with ⟨hre, hme⟩
        cases hre
        exact ⟨rfl, by simp [hme]⟩
      | panicked =>
        rcases herr with ⟨hre, _⟩
        cases hre
      | ok cfgs1 =>
        rcases herr with ⟨hre, _⟩
        cases hre

/-- C7 (witness): with the Otlp flag set and an OTLP logger installer that
returns a best-effort handle together with an error, Build logs the error
and returns it, and does not panic. -/
theorem c7_installer_error_no_panic_witness :
    loggersPresent
      { envAllOk with otlpLoggerInstall := fun _ => (some (), some "otlp down") } ∧
    build NewConfigsBuilder.Otlp
        { envAllOk with otlpLoggerInstall := fun _ => (some (), some "otlp down") } =
      BuildResult.err "otlp down" ∧
    BuildStep.errorLogged "otlp down" ∈
      buildTrace NewConfigsBuilder.Otlp
        { envAllOk with otlpLoggerInstall := fun _ => (some (), some "otlp down") } :=
  ⟨⟨fun _ => rfl, fun _ => rfl⟩,
    (c7_installer_error_no_panic NewConfigsBuilder.Otlp
        { envAllOk with otlpLoggerInstall := fun _ => (some (), some "otlp down") }
        ⟨fun _ => rfl, fun _ => rfl⟩).2
      { appConfigs := some (), otlpConfigs := some (), custom := ⟨[], [], []⟩,
        logger := none, httpConfigs := none, postgresConfigs := none,
        identityConfigs := none, mqttConfigs := none, rabbitmqConfigs := none,
        awsConfigs := none, dynamoDBConfigs := none }
      "otlp down" (by decide) (Or.inl ⟨rfl, rfl⟩)⟩

/-- C5 (witness): the trace decomposition instantiated on a concrete run
with Postgres and MQTT enabled in the benign environment. -/
theorem c5_fixed_order_witness :
    ∃ tBase tDom,
      buildTrace NewConfigsBuilder.Postgres.MQTT envAllOk = tBase ++ tDom ∧
      (∀ s ∈ tBase, isDomainStep s = false) ∧
      (domainEvents tDom).map Prod.fst <+:
        List.filter (fun x => enabled NewConfigsBuilder.Postgres.MQTT x) domainOrder ∧
      (tDom ≠ [] →
        BuildStep.unmarshalAppStep (Except.ok ()) ∈ tBase ∧
        BuildStep.unmarshalOtlpStep (Except.ok ()) ∈ tBase ∧
        (BuildStep.installOtlpLoggerStep none ∈ tBase ∨
          BuildStep.installNoopLoggerStep none ∈ tBase)) :=
  c5_fixed_order NewConfigsBuilder.Postgres.MQTT envAllOk
